import Mathlib

/-!
Verification of the voice-channel pool manager of the University Discord Bot.

The repository contains two revisions of the voice-channel module:

* the newer service/handler revision
  (`src/university_bot/services/voice_channel_manager.py`,
  `src/university_bot/handlers/voice_channel_manager.py`,
  `src/university_bot/modules/voice_channel_manager/config.py`), and
* the older cog revision (`src/university_bot/cogs/voice_channel_manager.py`).

Both are embedded below.  Channels and members are modelled as records;
the channel list of the managed category is the shared mutable state.
Remote operations (create/delete/edit) are modelled as succeeding unless
stated otherwise, matching the claims' "all remote operations succeeding"
premises; where an operation's outcome matters a Boolean oracle is passed
in.  `asyncio` scheduling is modelled explicitly only for the claim about
the serialization lock, via a small two-thread interleaving semantics.
-/

namespace UniversityBot

/-- A guild member as seen by the voice-channel manager: an id and the
`Member.bot` flag. -/
structure VMember where
  mid : Nat
  bot : Bool
deriving DecidableEq

/-- A voice channel of the guild: id, name, the id of the category it
belongs to (`channel.category`), its member list and its user limit. -/
structure VChannel where
  cid : Nat
  cname : String
  catId : Nat
  members : List VMember
  userLimit : Int
deriving DecidableEq

/-- `channel_order_strategy`: the two values admitted by the config
validators (`Literal["random", "first available"]`). -/
inductive ChannelOrderStrategy where
  | random
  | firstAvailable
deriving DecidableEq

/-- The service revision's configuration
(`modules/voice_channel_manager/config.py`, class
`VoiceChannelManagerConfig`); logging flags are omitted as pure
observability. -/
structure VoiceChannelManagerConfig where
  managed_category_id : Nat
  ignore_bots : Bool
  channel_order_strategy : ChannelOrderStrategy
  ensure_unique_names : Bool
  overflow_channel_name : String
  available_channel_names : List String
deriving DecidableEq

/-- The cog revision's configuration (`cogs/voice_channel_manager.py`,
class `Config`); it has no `ignore_bots` field. -/
structure CogConfig where
  managed_category_id : Nat
  channel_order_strategy : ChannelOrderStrategy
  ensure_unique_names : Bool
  overflow_channel_name : String
  available_channel_names : List String
deriving DecidableEq

/-- The exception taxonomy of the module
(`modules/voice_channel_manager/exceptions.py`), plus Python's built-in
`ValueError`; `voiceChannelManagerError` stands for a bare
`VoiceChannelManagerException` wrapping a remote failure. -/
inductive PyError where
  | valueError
  | invalidConfiguration
  | missingPermissions
  | unmanagedCategory
  | rateLimitExceeded
  | voiceChannelManagerError
deriving DecidableEq

/-- Replacement of every occurrence of a pattern in a character list;
models Python's `str.replace`.  An empty pattern is returned unchanged
(the source only ever replaces the literal `"{number}"`).  The fuel
argument makes the recursion structural; each step consumes at least
one character, so fuel equal to the list length suffices. -/
def replaceChars (pat rep : List Char) : Nat → List Char → List Char
  | 0, s => s
  | _, [] => []
  | fuel + 1, c :: cs =>
    if pat.isEmpty then c :: cs
    else if pat.isPrefixOf (c :: cs) then
      rep ++ replaceChars pat rep fuel (cs.drop (pat.length - 1))
    else
      c :: replaceChars pat rep fuel cs

/-- Python `s.replace(pat, rep)` on strings. -/
def pyReplace (s pat rep : String) : String :=
  ⟨replaceChars pat.data rep.data s.data.length s.data⟩

/-- `VoiceChannelManagerService.is_channel_empty`: true iff no member
survives the filter `not (ignore_bots and member.bot)`. -/
def is_channel_empty (cfg : VoiceChannelManagerConfig) (ch : VChannel) : Bool :=
  ! ch.members.any (fun m => ! (cfg.ignore_bots && m.bot))

/-- `VoiceChannelManagerService.empty_voice_channels`: the channels of
the managed category whose member list is empty (`if not i.members` —
note: the raw member list, bots included). -/
def empty_voice_channels (st : List VChannel) : List VChannel :=
  st.filter (fun c => c.members.isEmpty)

/-- `get_voice_channel_by_name(category, name)`
(`utils/voice_channels.py`): the first voice channel of the category
with the given name.  The source also raises `ValueError` on a
blank name; no claim concerns blank names, so that guard is not
modelled. -/
def get_voice_channel_by_name (st : List VChannel) (name : String) : Option VChannel :=
  st.find? (fun c => c.cname = name)

/-- The ids of a channel list. -/
def cids (st : List VChannel) : List Nat :=
  st.map VChannel.cid

/-- A channel as returned by a successful `create_voice_channel` call:
fresh id, the allocator's name, the managed category, no members. -/
def mkVoiceChannel (nid : Nat) (nm : String) (catId : Nat) : VChannel :=
  ⟨nid, nm, catId, [], 0⟩

/-- `VoiceChannelManagerService._get_overflow_name`: substitute
`{number}` into `overflow_channel_name` starting from the given number
and increment until the name is unused.  The source's `while True` loop
is bounded here by fuel; `none` means the loop did not finish within the
fuel (in the source it would still be running). -/
def get_overflow_name (cfg : VoiceChannelManagerConfig) (st : List VChannel) :
    Nat → Nat → Option String
  | 0, _ => none
  | fuel + 1, number =>
    let name := pyReplace cfg.overflow_channel_name "{number}" (toString number)
    if (get_voice_channel_by_name st name).isNone then some name
    else get_overflow_name cfg st fuel (number + 1)

/-- `VoiceChannelManagerService._get_first_available_channel_name`:
first configured candidate not in use, else the overflow name. -/
def get_first_available_channel_name (cfg : VoiceChannelManagerConfig)
    (st : List VChannel) (fuel : Nat) : Option String :=
  match cfg.available_channel_names.find?
      (fun n => (get_voice_channel_by_name st n).isNone) with
  | some n => some n
  | none => get_overflow_name cfg st fuel 1

/-- `VoiceChannelManagerService._get_random_channel_name`:
`random.sample` produces a fresh permutation of the candidate list
(passed in as `sampled`); the first unused name of that permutation is
returned, else the overflow name. -/
def get_random_channel_name (cfg : VoiceChannelManagerConfig)
    (st : List VChannel) (sampled : List String) (fuel : Nat) : Option String :=
  match sampled.find? (fun n => (get_voice_channel_by_name st n).isNone) with
  | some n => some n
  | none => get_overflow_name cfg st fuel 1

/-- `VoiceChannelManagerService._get_next_channel_name`: dispatch on the
configured strategy. -/
def get_next_channel_name (cfg : VoiceChannelManagerConfig) (st : List VChannel)
    (sampled : List String) (fuel : Nat) : Option String :=
  match cfg.channel_order_strategy with
  | .random => get_random_channel_name cfg st sampled fuel
  | .firstAvailable => get_first_available_channel_name cfg st fuel

/-- The cog revision's overflow loop
(`while self.get_voice_channel_with_name(get_overflow_name(number)): number += 1`):
returns the first number from `number` upward whose overflow name is
unused; fuel bounds the unbounded loop. -/
def cog_overflow_search (st : List VChannel) (template : String) :
    Nat → Nat → Option Nat
  | 0, _ => none
  | fuel + 1, number =>
    if (get_voice_channel_by_name st
        (pyReplace template "{number}" (toString number))).isSome then
      cog_overflow_search st template fuel (number + 1)
    else some number

/-- `VoiceChannelManager.get_next_voice_channel_name` of the cog
revision.  Under the RANDOM strategy the source runs
`random.shuffle(names)` on `self.config.available_channel_names`
IN PLACE: `shuffled` is the shuffle outcome (a permutation of the list),
and the returned config reflects the mutation.  `randStart` models
`random.randint(1, 100)`; `fuel` bounds the overflow `while` loop
(`none` in the first component means that loop had not terminated). -/
def cog_get_next_voice_channel_name (cfg : CogConfig) (st : List VChannel)
    (shuffled : List String) (randStart : Nat) (fuel : Nat) :
    Option String × CogConfig :=
  let names :=
    match cfg.channel_order_strategy with
    | .random => shuffled
    | .firstAvailable => cfg.available_channel_names
  let cfg' :=
    match cfg.channel_order_strategy with
    | .random => { cfg with available_channel_names := shuffled }
    | .firstAvailable => cfg
  match names.find? (fun n => (get_voice_channel_by_name st n).isNone) with
  | some n => (some n, cfg')
  | none =>
    if cfg.ensure_unique_names then
      let start :=
        match cfg.channel_order_strategy with
        | .random => randStart
        | .firstAvailable => 1
      match cog_overflow_search st cfg.overflow_channel_name fuel start with
      | some k => (some (pyReplace cfg.overflow_channel_name "{number}" (toString k)), cfg')
      | none => (none, cfg')
    else (some cfg.overflow_channel_name, cfg')

/-- `VoiceChannelManagerService.delete_channel`: raises
`UnmanagedCategory` when the channel's category is not the managed one;
otherwise the channel is removed from the guild (`NotFound` is treated
as success, so deleting an already-deleted channel succeeds). -/
def delete_channel (cfg : VoiceChannelManagerConfig) (st : List VChannel)
    (ch : VChannel) : Except PyError (List VChannel) :=
  if ch.catId = cfg.managed_category_id then
    .ok (st.filter (fun c => c.cid ≠ ch.cid))
  else .error .unmanagedCategory

/-- The `asyncio.gather(..., return_exceptions=True)` of the sweep:
delete each listed channel, individually swallowing failures. -/
def runDeletes (cfg : VoiceChannelManagerConfig) (st : List VChannel)
    (chs : List VChannel) : List VChannel :=
  chs.foldl
    (fun s ch =>
      match delete_channel cfg s ch with
      | .ok s1 => s1
      | .error _ => s)
    st

/-- Result of one reconciliation sweep, instrumented with the number of
delete and create calls it issued. -/
structure SweepResult where
  state : List VChannel
  deleted : Nat
  created : Nat
deriving DecidableEq

/-- `VoiceChannelManagerService.check_voice_channels`: snapshot the
empty channels; if more than one, delete all but the first; if none,
create one.  `nid`/`nm` are the id and allocator name of the channel a
successful create produces. -/
def check_voice_channels (cfg : VoiceChannelManagerConfig) (st : List VChannel)
    (nid : Nat) (nm : String) : SweepResult :=
  let empty_channels := empty_voice_channels st
  let st1 :=
    if empty_channels.length > 1 then runDeletes cfg st (empty_channels.drop 1)
    else st
  let deleted := if empty_channels.length > 1 then empty_channels.length - 1 else 0
  if empty_channels.isEmpty then
    ⟨st1 ++ [mkVoiceChannel nid nm cfg.managed_category_id], deleted, 1⟩
  else ⟨st1, deleted, 0⟩

/-- `VoiceChannelManagerService.set_limit`: validate the 0..99 range
(`ValueError`), then the category (`UnmanagedCategory`), then perform
the remote edit, whose outcome is the oracle `editOk` (a failing edit
raises a wrapped `VoiceChannelManagerException` and leaves the channel
unchanged).  Returns the outcome and the channel afterwards. -/
def set_limit (cfg : VoiceChannelManagerConfig) (ch : VChannel) (value : Int)
    (editOk : Bool) : Except PyError Unit × VChannel :=
  if ¬ (0 ≤ value ∧ value ≤ 99) then (.error .valueError, ch)
  else if ch.catId ≠ cfg.managed_category_id then (.error .unmanagedCategory, ch)
  else if editOk then (.ok (), { ch with userLimit := value })
  else (.error .voiceChannelManagerError, ch)

/-- A channel of the guild as the startup binder sees it: its id,
whether it is a `CategoryChannel`, and whether
`permissions_for(guild.me).manage_channels` holds on it. -/
structure GuildChannel where
  gcid : Nat
  isCategory : Bool
  botCanManage : Bool
deriving DecidableEq

/-- `guild.get_channel`. -/
def get_channel (g : List GuildChannel) (cid : Nat) : Option GuildChannel :=
  g.find? (fun c => c.gcid = cid)

/-- `VoiceChannelManagerConfig.set_category` /
`_validate_category_id`: raises `ValueError` when the id does not
resolve to a category channel. -/
def set_category (g : List GuildChannel) (cid : Nat) : Except PyError GuildChannel :=
  match get_channel g cid with
  | some c => if c.isCategory then .ok c else .error .valueError
  | none => .error .valueError

/-- `VoiceChannelManagerConfig.validate_category_permissions`: raises
`MissingPermissions` when the bot lacks `manage_channels` on the
category. -/
def validate_category_permissions (c : GuildChannel) : Except PyError Unit :=
  if c.botCanManage then .ok () else .error .missingPermissions

/-- `VoiceChannelManagerService.__init__`: runs `set_category` then
`validate_category_permissions`, and wraps any `ValueError` or
`MissingPermissions` into `InvalidConfiguration("Invalid category.")`. -/
def service_init (g : List GuildChannel) (cid : Nat) : Except PyError GuildChannel :=
  match set_category g cid with
  | .error _ => .error .invalidConfiguration
  | .ok cat =>
    match validate_category_permissions cat with
    | .error _ => .error .invalidConfiguration
    | .ok _ => .ok cat

/-- `VoiceChannelManagerHandler._handle_channel_join`, instrumented with
the number of create calls: if the joined channel is in the managed
category and no empty channel remains, create one (under the lock). -/
def handle_channel_join_ops (cfg : VoiceChannelManagerConfig) (st : List VChannel)
    (ch : VChannel) (nid : Nat) (nm : String) : List VChannel × Nat :=
  if ch.catId ≠ cfg.managed_category_id then (st, 0)
  else if (empty_voice_channels st).isEmpty then
    (st ++ [mkVoiceChannel nid nm cfg.managed_category_id], 1)
  else (st, 0)

/-- `VoiceChannelManagerHandler._handle_channel_leave`, instrumented
with the number of create calls: if the vacated channel is in the
managed category and `is_channel_empty` holds for it, then under the
lock the channel is deleted (unconditionally; `NotFound` counts as
success) and, if no empty channel remains, one is created. -/
def handle_channel_leave_ops (cfg : VoiceChannelManagerConfig) (st : List VChannel)
    (ch : VChannel) (nid : Nat) (nm : String) : List VChannel × Nat :=
  if ch.catId ≠ cfg.managed_category_id then (st, 0)
  else if ! is_channel_empty cfg ch then (st, 0)
  else
    let st1 := st.filter (fun c => c.cid ≠ ch.cid)
    if (empty_voice_channels st1).isEmpty then
      (st1 ++ [mkVoiceChannel nid nm cfg.managed_category_id], 1)
    else (st1, 0)

/-- One whole `_handle_channel_leave` task as a transformation of the
shared pair (category channel list, number of create calls so far):
the task's pre-lock checks read only the stale channel object `ch`, and
everything that touches the shared channel list happens inside the
single `async with self._channel_lock` block. -/
def leaveTask (cfg : VoiceChannelManagerConfig) (ch : VChannel) (nid : Nat)
    (nm : String) (p : List VChannel × Nat) : List VChannel × Nat :=
  let q := handle_channel_leave_ops cfg p.1 ch nid nm
  (q.1, p.2 + q.2)

/-- The state after `_handle_channel_join`. -/
def handleChannelJoin (cfg : VoiceChannelManagerConfig) (st : List VChannel)
    (ch : VChannel) (nid : Nat) (nm : String) : List VChannel :=
  (handle_channel_join_ops cfg st ch nid nm).1

/-- The state after `_handle_channel_leave`. -/
def handleChannelLeave (cfg : VoiceChannelManagerConfig) (st : List VChannel)
    (ch : VChannel) (nid : Nat) (nm : String) : List VChannel :=
  (handle_channel_leave_ops cfg st ch nid nm).1

/-- `Listeners.handle_channel_leave` of the cog revision: if the vacated
channel has no members and lies in the managed category, and the
category has any empty channel (note: the vacated channel itself is
enumerated here too), delete the vacated channel. -/
def cog_handle_channel_leave (cfg : CogConfig) (st : List VChannel)
    (ch : VChannel) : List VChannel :=
  if ch.members.isEmpty && (ch.catId = cfg.managed_category_id) then
    if ! (empty_voice_channels st).isEmpty then
      st.filter (fun c => c.cid ≠ ch.cid)
    else st
  else st

/-- The external platform applying a member's join to the category's
channel list (membership is mutated by the platform and observed via
events). -/
def applyJoin (st : List VChannel) (cid : Nat) (m : VMember) : List VChannel :=
  st.map (fun c => if c.cid = cid then { c with members := c.members ++ [m] } else c)

/-- The external platform applying a member's leave to the category's
channel list. -/
def applyLeave (st : List VChannel) (cid mid : Nat) : List VChannel :=
  st.map
    (fun c =>
      if c.cid = cid then { c with members := c.members.filter (fun m => m.mid ≠ mid) }
      else c)

/-- A membership event: the channel joined or left, the member (resp.
member id), and the id/name a create issued by the reactive handler
would produce (the platform assigns the id, the allocator the name). -/
inductive VEvent where
  | join (cid : Nat) (m : VMember) (nid : Nat) (nm : String)
  | leave (cid mid : Nat) (nid : Nat) (nm : String)
deriving DecidableEq

/-- The id a create during this event's handling would use. -/
def VEvent.newId : VEvent → Nat
  | .join _ _ nid _ => nid
  | .leave _ _ nid _ => nid

/-- One event followed by its reactive handler
(`on_voice_state_update` dispatching to `_handle_channel_join` /
`_handle_channel_leave`), with all remote operations succeeding.  The
handler receives the (already updated) channel object of the event; an
event on a channel outside the category leaves the category list
unchanged, as the handlers' `is_channel_in_managed_category` guard
would. -/
def stepEvent (cfg : VoiceChannelManagerConfig) (st : List VChannel) :
    VEvent → List VChannel
  | .join cid m nid nm =>
    let st1 := applyJoin st cid m
    match st1.find? (fun c => c.cid = cid) with
    | some ch => handleChannelJoin cfg st1 ch nid nm
    | none => st1
  | .leave cid mid nid nm =>
    let st1 := applyLeave st cid mid
    match st1.find? (fun c => c.cid = cid) with
    | some ch => handleChannelLeave cfg st1 ch nid nm
    | none => st1

/-- A sequence of events, each fully handled before the next (the
handlers' decisions are serialized by `_channel_lock`). -/
def runEvents (cfg : VoiceChannelManagerConfig) (st : List VChannel)
    (evs : List VEvent) : List VChannel :=
  evs.foldl (stepEvent cfg) st

/-- Discord never reuses channel ids: each event's create id is fresh
for the state it fires in. -/
def FreshEvents (cfg : VoiceChannelManagerConfig) (st : List VChannel) :
    List VEvent → Bool
  | [] => true
  | ev :: evs =>
    (! (cids st).any (fun k => k == ev.newId)) &&
      FreshEvents cfg (stepEvent cfg st ev) evs

/-- Number of channels with an empty raw member list. -/
def emptyCount (st : List VChannel) : Nat :=
  (empty_voice_channels st).length

/-- The channels empty under the spec's occupancy predicate (counted
members, excluding bots when `ignore_bots` is set) — i.e. under
`is_channel_empty`. -/
def countedEmptyChannels (cfg : VoiceChannelManagerConfig) (st : List VChannel) :
    List VChannel :=
  st.filter (fun c => is_channel_empty cfg c)

/-- Well-formedness of the category's channel list: distinct channel
ids (Discord ids are unique) and every channel lies in the managed
category (the list is the category's own listing). -/
def PoolWF (cfg : VoiceChannelManagerConfig) (st : List VChannel) : Prop :=
  (cids st).Nodup ∧ ∀ c ∈ st, c.catId = cfg.managed_category_id

/-- Configuration of two cooperative tasks contending for the single
`_channel_lock`.  `shared` is the state both critical sections act on;
`owner` is the task currently holding the lock; `pc1`/`pc2` are the
tasks' program counters: `0` before `async with self._channel_lock`,
`1` holding the lock with the body still to run, `2` body done, release
pending, `3` finished.  Each task touches the shared state only inside
its critical section, so the body is one step relative to the other
task. -/
structure LockConf (σ : Type) where
  shared : σ
  owner : Option Bool
  pc1 : Nat
  pc2 : Nat

/-- Initial configuration: lock free, both tasks before acquisition. -/
def lockInit {σ : Type} (s : σ) : LockConf σ :=
  ⟨s, none, 0, 0⟩

/-- One scheduler step giving task `t` (task one when `t = true`) a
chance to act: acquire the free lock, run its critical section `f1`
resp. `f2`, or release.  A task blocked on the held lock, or already
finished, leaves the configuration unchanged. -/
def lockStepT {σ : Type} (f1 f2 : σ → σ) (c : LockConf σ) (t : Bool) : LockConf σ :=
  let pc := if t then c.pc1 else c.pc2
  if pc = 0 then
    if c.owner = none then
      if t then { c with owner := some true, pc1 := 1 }
      else { c with owner := some false, pc2 := 1 }
    else c
  else if pc = 1 then
    if c.owner = some t then
      if t then { c with shared := f1 c.shared, pc1 := 2 }
      else { c with shared := f2 c.shared, pc2 := 2 }
    else c
  else if pc = 2 then
    if t then { c with owner := none, pc1 := 3 }
    else { c with owner := none, pc2 := 3 }
  else c

/-- Run the two tasks under an arbitrary schedule. -/
def lockRun {σ : Type} (f1 f2 : σ → σ) (c : LockConf σ) (sched : List Bool) :
    LockConf σ :=
  sched.foldl (lockStepT f1 f2) c

/-- The configurations reachable from `lockInit s0`: the lock serializes
the two critical sections, so the shared state is always `s0`, one
critical section applied, or both applied in one of the two orders. -/
def LockReach {σ : Type} (f1 f2 : σ → σ) (s0 : σ) (c : LockConf σ) : Prop :=
  c = ⟨s0, none, 0, 0⟩ ∨
  c = ⟨s0, some true, 1, 0⟩ ∨ c = ⟨s0, some false, 0, 1⟩ ∨
  c = ⟨f1 s0, some true, 2, 0⟩ ∨ c = ⟨f2 s0, some false, 0, 2⟩ ∨
  c = ⟨f1 s0, none, 3, 0⟩ ∨ c = ⟨f2 s0, none, 0, 3⟩ ∨
  c = ⟨f1 s0, some false, 3, 1⟩ ∨ c = ⟨f2 s0, some true, 1, 3⟩ ∨
  c = ⟨f2 (f1 s0), some false, 3, 2⟩ ∨ c = ⟨f1 (f2 s0), some true, 2, 3⟩ ∨
  c = ⟨f2 (f1 s0), none, 3, 3⟩ ∨ c = ⟨f1 (f2 s0), none, 3, 3⟩

lemma lockStepT_reach {σ : Type} (f1 f2 : σ → σ) (s0 : σ) (c : LockConf σ)
    (t : Bool) (h : LockReach f1 f2 s0 c) :
    LockReach f1 f2 s0 (lockStepT f1 f2 c t) := by
  rcases h with h | h | h | h | h | h | h | h | h | h | h | h | h <;>
    subst h <;> cases t <;> simp [lockStepT, LockReach]

lemma lockRun_reach {σ : Type} (f1 f2 : σ → σ) (s0 : σ) (sched : List Bool) :
    ∀ c, LockReach f1 f2 s0 c → LockReach f1 f2 s0 (lockRun f1 f2 c sched) := by
  induction sched with
  | nil => intro c h; exact h
  | cons t sched ih =>
    intro c h
    exact ih _ (lockStepT_reach f1 f2 s0 c t h)

/-- When both tasks have finished, the shared state is one of the two
sequential compositions of the critical sections: the lock admits no
other outcome. -/
lemma lock_serializes {σ : Type} (f1 f2 : σ → σ) (s0 : σ) (sched : List Bool)
    (h1 : (lockRun f1 f2 (lockInit s0) sched).pc1 = 3)
    (h2 : (lockRun f1 f2 (lockInit s0) sched).pc2 = 3) :
    (lockRun f1 f2 (lockInit s0) sched).shared = f2 (f1 s0) ∨
      (lockRun f1 f2 (lockInit s0) sched).shared = f1 (f2 s0) := by
  have hr := lockRun_reach f1 f2 s0 sched (lockInit s0) (Or.inl rfl)
  rcases hr with h | h | h | h | h | h | h | h | h | h | h | h | h <;>
    rw [h] at h1 h2 ⊢ <;> simp_all

/-! Helper lemmas about channel lists. -/

lemma cids_append (l₁ l₂ : List VChannel) : cids (l₁ ++ l₂) = cids l₁ ++ cids l₂ := by
  simp [cids]

lemma mem_cids {st : List VChannel} {c : VChannel} (h : c ∈ st) : c.cid ∈ cids st :=
  List.mem_map_of_mem VChannel.cid h

lemma exists_split_of_mem_nodup {st : List VChannel} {c : VChannel}
    (hc : c ∈ st) (hnd : (cids st).Nodup) :
    ∃ l₁ l₂, st = l₁ ++ c :: l₂ ∧ (∀ d ∈ l₁, d.cid ≠ c.cid) ∧
      ∀ d ∈ l₂, d.cid ≠ c.cid := by
  obtain ⟨l₁, l₂, rfl⟩ := List.append_of_mem hc
  have hnd' : (cids l₁ ++ c.cid :: cids l₂).Nodup := by
    simpa [cids] using hnd
  rcases List.nodup_append.mp hnd' with ⟨-, hn2, hdisj⟩
  refine ⟨l₁, l₂, rfl, ?_, ?_⟩
  · intro d hd heq
    have : d.cid ∈ cids l₁ := mem_cids hd
    have := hdisj this
    simp [heq] at this
  · intro d hd heq
    have hmem : c.cid ∈ cids l₂ := heq ▸ mem_cids hd
    have : c.cid ∉ cids l₂ := (List.nodup_cons.mp hn2).1
    exact this hmem

lemma map_update_split (f : VChannel → VChannel) (cid : Nat)
    (hf : ∀ d, d.cid ≠ cid → f d = d) (l₁ l₂ : List VChannel) (c : VChannel)
    (h₁ : ∀ d ∈ l₁, d.cid ≠ cid) (h₂ : ∀ d ∈ l₂, d.cid ≠ cid) :
    (l₁ ++ c :: l₂).map f = l₁ ++ f c :: l₂ := by
  have e₁ : l₁.map f = l₁ :=
    (List.map_congr_left fun d hd => hf d (h₁ d hd)).trans (List.map_id l₁)
  have e₂ : l₂.map f = l₂ :=
    (List.map_congr_left fun d hd => hf d (h₂ d hd)).trans (List.map_id l₂)
  simp [e₁, e₂]

lemma map_eq_self_of_no_cid (f : VChannel → VChannel) (cid : Nat)
    (hf : ∀ d, d.cid ≠ cid → f d = d) (st : List VChannel)
    (h : cid ∉ cids st) : st.map f = st := by
  have : ∀ d ∈ st, f d = d := by
    intro d hd
    refine hf d fun heq => h ?_
    exact heq ▸ mem_cids hd
  exact (List.map_congr_left this).trans (List.map_id st)

lemma filter_ne_split (l₁ l₂ : List VChannel) (c : VChannel) (cid : Nat)
    (hc : c.cid = cid) (h₁ : ∀ d ∈ l₁, d.cid ≠ cid) (h₂ : ∀ d ∈ l₂, d.cid ≠ cid) :
    (l₁ ++ c :: l₂).filter (fun d => d.cid ≠ cid) = l₁ ++ l₂ := by
  have e₁ : l₁.filter (fun d => d.cid ≠ cid) = l₁ :=
    List.filter_eq_self.mpr fun d hd => by simp [h₁ d hd]
  have e₂ : l₂.filter (fun d => d.cid ≠ cid) = l₂ :=
    List.filter_eq_self.mpr fun d hd => by simp [h₂ d hd]
  simp only [ne_eq, decide_not] at e₁ e₂
  simp [List.filter_append, List.filter_cons, hc, e₁, e₂]

lemma emptyCount_append (l₁ l₂ : List VChannel) :
    emptyCount (l₁ ++ l₂) = emptyCount l₁ + emptyCount l₂ := by
  simp [emptyCount, empty_voice_channels, List.filter_append]

lemma emptyCount_cons (c : VChannel) (l : List VChannel) :
    emptyCount (c :: l) = (if c.members.isEmpty then 1 else 0) + emptyCount l := by
  simp only [emptyCount, empty_voice_channels, List.filter_cons]
  split <;> simp [Nat.add_comm]

lemma emptyCount_mk (nid : Nat) (nm : String) (cat : Nat) :
    emptyCount [mkVoiceChannel nid nm cat] = 1 := by
  simp [emptyCount, empty_voice_channels, mkVoiceChannel]

lemma empty_voice_channels_isEmpty_iff (st : List VChannel) :
    (empty_voice_channels st).isEmpty = true ↔ emptyCount st = 0 := by
  simp [emptyCount, List.isEmpty_iff, List.length_eq_zero]

lemma is_channel_empty_of_members_isEmpty (cfg : VoiceChannelManagerConfig)
    (ch : VChannel) (h : ch.members.isEmpty = true) :
    is_channel_empty cfg ch = true := by
  rcases ch with ⟨cid, nm, cat, members, lim⟩
  cases members with
  | nil => simp [is_channel_empty]
  | cons m ms => simp at h

lemma members_not_isEmpty_of_not_empty (cfg : VoiceChannelManagerConfig)
    (ch : VChannel) (h : is_channel_empty cfg ch = false) :
    ch.members.isEmpty = false := by
  cases hm : ch.members.isEmpty with
  | false => rfl
  | true => rw [is_channel_empty_of_members_isEmpty cfg ch hm] at h; cases h

lemma find?_eq_some_split {α : Type} (p : α → Bool) (l : List α) (a : α)
    (h : l.find? p = some a) :
    p a = true ∧ ∃ l₁ l₂, l = l₁ ++ a :: l₂ ∧ ∀ x ∈ l₁, p x = false := by
  refine ⟨List.find?_some h, ?_⟩
  induction l with
  | nil => cases h
  | cons b l ih =>
    by_cases hb : p b
    · rw [List.find?_cons_of_pos _ hb] at h
      cases h
      exact ⟨[], l, rfl, by simp⟩
    · rw [List.find?_cons_of_neg _ hb] at h
      obtain ⟨l₁, l₂, rfl, hall⟩ := ih h
      exact ⟨b :: l₁, l₂, rfl, by
        intro x hx
        rcases List.mem_cons.mp hx with rfl | hx
        · exact Bool.of_not_eq_true hb
        · exact hall x hx⟩

/-! Unfolding equations for the handlers and the event step. -/

lemma handleChannelJoin_skip (cfg : VoiceChannelManagerConfig) (st : List VChannel)
    (ch : VChannel) (nid : Nat) (nm : String)
    (hcat : ch.catId ≠ cfg.managed_category_id) :
    handleChannelJoin cfg st ch nid nm = st := by
  simp [handleChannelJoin, handle_channel_join_ops, hcat]

lemma handleChannelJoin_active (cfg : VoiceChannelManagerConfig) (st : List VChannel)
    (ch : VChannel) (nid : Nat) (nm : String)
    (hcat : ch.catId = cfg.managed_category_id) :
    handleChannelJoin cfg st ch nid nm =
      if (empty_voice_channels st).isEmpty then
        st ++ [mkVoiceChannel nid nm cfg.managed_category_id]
      else st := by
  simp only [handleChannelJoin, handle_channel_join_ops, hcat, ne_eq,
    not_true_eq_false, if_false, ite_not]
  split <;> simp_all

lemma handleChannelLeave_skip_cat (cfg : VoiceChannelManagerConfig)
    (st : List VChannel) (ch : VChannel) (nid : Nat) (nm : String)
    (hcat : ch.catId ≠ cfg.managed_category_id) :
    handleChannelLeave cfg st ch nid nm = st := by
  simp [handleChannelLeave, handle_channel_leave_ops, hcat]

lemma handleChannelLeave_skip_nonempty (cfg : VoiceChannelManagerConfig)
    (st : List VChannel) (ch : VChannel) (nid : Nat) (nm : String)
    (hemp : is_channel_empty cfg ch = false) :
    handleChannelLeave cfg st ch nid nm = st := by
  simp [handleChannelLeave, handle_channel_leave_ops, hemp]

lemma handleChannelLeave_active (cfg : VoiceChannelManagerConfig)
    (st : List VChannel) (ch : VChannel) (nid : Nat) (nm : String)
    (hcat : ch.catId = cfg.managed_category_id)
    (hemp : is_channel_empty cfg ch = true) :
    handleChannelLeave cfg st ch nid nm =
      if (empty_voice_channels (st.filter (fun c => c.cid ≠ ch.cid))).isEmpty then
        st.filter (fun c => c.cid ≠ ch.cid) ++
          [mkVoiceChannel nid nm cfg.managed_category_id]
      else st.filter (fun c => c.cid ≠ ch.cid) := by
  simp only [handleChannelLeave, handle_channel_leave_ops, hcat, hemp, ne_eq,
    not_true_eq_false, if_false, Bool.not_true]
  simp [apply_ite]

lemma cids_applyJoin (st : List VChannel) (cid : Nat) (m : VMember) :
    cids (applyJoin st cid m) = cids st := by
  simp only [applyJoin, cids, List.map_map]
  refine List.map_congr_left fun c _ => ?_
  by_cases h : c.cid = cid <;> simp [h]

lemma cids_applyLeave (st : List VChannel) (cid mid : Nat) :
    cids (applyLeave st cid mid) = cids st := by
  simp only [applyLeave, cids, List.map_map]
  refine List.map_congr_left fun c _ => ?_
  by_cases h : c.cid = cid <;> simp [h]

lemma poolWF_applyJoin (cfg : VoiceChannelManagerConfig) (st : List VChannel)
    (cid : Nat) (m : VMember) (h : PoolWF cfg st) :
    PoolWF cfg (applyJoin st cid m) := by
  refine ⟨by rw [cids_applyJoin]; exact h.1, ?_⟩
  intro c hc
  simp only [applyJoin, List.mem_map] at hc
  obtain ⟨c₀, hc₀, rfl⟩ := hc
  have hcat := h.2 c₀ hc₀
  by_cases hcid : c₀.cid = cid <;> simp [hcid, hcat]

lemma poolWF_applyLeave (cfg : VoiceChannelManagerConfig) (st : List VChannel)
    (cid mid : Nat) (h : PoolWF cfg st) :
    PoolWF cfg (applyLeave st cid mid) := by
  refine ⟨by rw [cids_applyLeave]; exact h.1, ?_⟩
  intro c hc
  simp only [applyLeave, List.mem_map] at hc
  obtain ⟨c₀, hc₀, rfl⟩ := hc
  have hcat := h.2 c₀ hc₀
  by_cases hcid : c₀.cid = cid <;> simp [hcid, hcat]

lemma applyJoin_split (l₁ l₂ : List VChannel) (c : VChannel) (cid : Nat)
    (m : VMember) (hc : c.cid = cid) (h₁ : ∀ d ∈ l₁, d.cid ≠ cid)
    (h₂ : ∀ d ∈ l₂, d.cid ≠ cid) :
    applyJoin (l₁ ++ c :: l₂) cid m =
      l₁ ++ { c with members := c.members ++ [m] } :: l₂ := by
  unfold applyJoin
  rw [map_update_split _ cid (fun d hd => if_neg hd) l₁ l₂ c h₁ h₂, if_pos hc]

lemma applyLeave_split (l₁ l₂ : List VChannel) (c : VChannel) (cid mid : Nat)
    (hc : c.cid = cid) (h₁ : ∀ d ∈ l₁, d.cid ≠ cid)
    (h₂ : ∀ d ∈ l₂, d.cid ≠ cid) :
    applyLeave (l₁ ++ c :: l₂) cid mid =
      l₁ ++ { c with members := c.members.filter (fun m => m.mid ≠ mid) } :: l₂ := by
  unfold applyLeave
  rw [map_update_split _ cid (fun d hd => if_neg hd) l₁ l₂ c h₁ h₂, if_pos hc]

lemma applyJoin_eq_self (st : List VChannel) (cid : Nat) (m : VMember)
    (h : cid ∉ cids st) : applyJoin st cid m = st :=
  map_eq_self_of_no_cid _ cid (fun d hd => if_neg hd) st h

lemma applyLeave_eq_self (st : List VChannel) (cid mid : Nat)
    (h : cid ∉ cids st) : applyLeave st cid mid = st :=
  map_eq_self_of_no_cid _ cid (fun d hd => if_neg hd) st h

lemma exists_channel_of_mem_cids {st : List VChannel} {k : Nat}
    (h : k ∈ cids st) : ∃ c ∈ st, c.cid = k := by
  simpa [cids, List.mem_map] using h

lemma eq_mid_of_mem_cid (l₁ l₂ : List VChannel) (c ch : VChannel) (cid : Nat)
    (h₁ : ∀ d ∈ l₁, d.cid ≠ cid) (h₂ : ∀ d ∈ l₂, d.cid ≠ cid)
    (hmem : ch ∈ l₁ ++ c :: l₂) (hcid : ch.cid = cid) : ch = c := by
  rcases List.mem_append.mp hmem with h | h
  · exact absurd hcid (h₁ ch h)
  · rcases List.mem_cons.mp h with rfl | h
    · rfl
    · exact absurd hcid (h₂ ch h)

lemma emptyCount_split (l₁ l₂ : List VChannel) (c : VChannel) :
    emptyCount (l₁ ++ c :: l₂) =
      emptyCount l₁ + ((if c.members.isEmpty then 1 else 0) + emptyCount l₂) := by
  rw [emptyCount_append, emptyCount_cons]

lemma nodup_cids_append_mk (st : List VChannel) (nid : Nat) (nm : String)
    (cat : Nat) (hnd : (cids st).Nodup) (hfresh : nid ∉ cids st) :
    (cids (st ++ [mkVoiceChannel nid nm cat])).Nodup := by
  rw [cids_append, List.nodup_append]
  refine ⟨hnd, by simp [cids, mkVoiceChannel], ?_⟩
  intro a ha hb
  simp [cids, mkVoiceChannel] at hb
  subst hb
  exact hfresh ha

lemma emptyCount_le_of_not_empty_mid (l₁ l₂ : List VChannel) (c c' : VChannel)
    (h : c'.members.isEmpty = false) :
    emptyCount (l₁ ++ c' :: l₂) ≤ emptyCount (l₁ ++ c :: l₂) := by
  rw [emptyCount_split, emptyCount_split, h]
  simp only [Bool.false_eq_true, if_false]
  split <;> omega

lemma nodup_cids_remove_mid (l₁ l₂ : List VChannel) (c : VChannel)
    (hnd : (cids (l₁ ++ c :: l₂)).Nodup) : (cids (l₁ ++ l₂)).Nodup := by
  have hsub : (l₁ ++ l₂).Sublist (l₁ ++ c :: l₂) :=
    List.Sublist.append_left (List.sublist_cons_self c l₂) l₁
  exact List.Nodup.sublist (hsub.map VChannel.cid) hnd

lemma stepEvent_join_some (cfg : VoiceChannelManagerConfig) (st : List VChannel)
    (cid : Nat) (m : VMember) (nid : Nat) (nm : String) (ch : VChannel)
    (h : (applyJoin st cid m).find? (fun c => c.cid = cid) = some ch) :
    stepEvent cfg st (.join cid m nid nm) =
      handleChannelJoin cfg (applyJoin st cid m) ch nid nm := by
  simp [stepEvent, h]

lemma stepEvent_join_none (cfg : VoiceChannelManagerConfig) (st : List VChannel)
    (cid : Nat) (m : VMember) (nid : Nat) (nm : String)
    (h : (applyJoin st cid m).find? (fun c => c.cid = cid) = none) :
    stepEvent cfg st (.join cid m nid nm) = applyJoin st cid m := by
  simp [stepEvent, h]

lemma stepEvent_leave_some (cfg : VoiceChannelManagerConfig) (st : List VChannel)
    (cid mid : Nat) (nid : Nat) (nm : String) (ch : VChannel)
    (h : (applyLeave st cid mid).find? (fun c => c.cid = cid) = some ch) :
    stepEvent cfg st (.leave cid mid nid nm) =
      handleChannelLeave cfg (applyLeave st cid mid) ch nid nm := by
  simp [stepEvent, h]

lemma stepEvent_leave_none (cfg : VoiceChannelManagerConfig) (st : List VChannel)
    (cid mid : Nat) (nid : Nat) (nm : String)
    (h : (applyLeave st cid mid).find? (fun c => c.cid = cid) = none) :
    stepEvent cfg st (.leave cid mid nid nm) = applyLeave st cid mid := by
  simp [stepEvent, h]

/-- One reactive step preserves well-formedness, the `≤ 1` bound on
channels with an empty raw member list, and non-emptiness of the
category. -/
lemma stepEvent_preserves (cfg : VoiceChannelManagerConfig) (st : List VChannel)
    (ev : VEvent) (hwf : PoolWF cfg st) (hfresh : ev.newId ∉ cids st)
    (hinv : emptyCount st ≤ 1) :
    PoolWF cfg (stepEvent cfg st ev) ∧ emptyCount (stepEvent cfg st ev) ≤ 1 ∧
      (st ≠ [] → stepEvent cfg st ev ≠ []) := by
  obtain ⟨hnd, hcats⟩ := hwf
  cases ev with
  | join cid m nid nm =>
    simp only [VEvent.newId] at hfresh
    have hwf1 : PoolWF cfg (applyJoin st cid m) :=
      poolWF_applyJoin cfg st cid m ⟨hnd, hcats⟩
    have hcids1 : cids (applyJoin st cid m) = cids st := cids_applyJoin st cid m
    cases hfind : (applyJoin st cid m).find? (fun c => c.cid = cid) with
    | none =>
      rw [stepEvent_join_none cfg st cid m nid nm hfind]
      have hnocid : cid ∉ cids st := by
        intro hmem
        obtain ⟨c, hc, hcc⟩ := exists_channel_of_mem_cids (hcids1 ▸ hmem)
        have := List.find?_eq_none.mp hfind c hc
        simp [hcc] at this
      rw [applyJoin_eq_self st cid m hnocid]
      exact ⟨⟨hnd, hcats⟩, hinv, fun h => h⟩
    | some ch =>
      rw [stepEvent_join_some cfg st cid m nid nm ch hfind]
      have hch1 : ch ∈ applyJoin st cid m := List.mem_of_find?_eq_some hfind
      have hchcid : ch.cid = cid := by simpa using List.find?_some hfind
      have hcidmem : cid ∈ cids st := by
        have hmemc : ch.cid ∈ cids (applyJoin st cid m) := mem_cids hch1
        rw [hchcid, hcids1] at hmemc
        exact hmemc
      obtain ⟨c₀, hc₀, hc₀cid⟩ := exists_channel_of_mem_cids hcidmem
      obtain ⟨l₁, l₂, hsplit, h₁, h₂⟩ := exists_split_of_mem_nodup hc₀ hnd
      rw [hc₀cid] at h₁ h₂
      have hst1eq : applyJoin st cid m =
          l₁ ++ { c₀ with members := c₀.members ++ [m] } :: l₂ := by
        rw [hsplit]
        exact applyJoin_split l₁ l₂ c₀ cid m hc₀cid h₁ h₂
      have hcount1 : emptyCount (applyJoin st cid m) ≤ emptyCount st := by
        rw [hst1eq]
        conv_rhs => rw [hsplit]
        exact emptyCount_le_of_not_empty_mid l₁ l₂ c₀ _ (by simp [List.isEmpty_iff])
      have hchcat : ch.catId = cfg.managed_category_id := hwf1.2 ch hch1
      rw [handleChannelJoin_active cfg (applyJoin st cid m) ch nid nm hchcat]
      cases hE : (empty_voice_channels (applyJoin st cid m)).isEmpty with
      | true =>
        rw [if_pos rfl]
        refine ⟨⟨?_, ?_⟩, ?_, ?_⟩
        · exact nodup_cids_append_mk _ nid nm _ hwf1.1 (hcids1 ▸ hfresh)
        · intro c hc
          rcases List.mem_append.mp hc with hc | hc
          · exact hwf1.2 c hc
          · simp only [List.mem_singleton] at hc
            rw [hc]
            rfl
        · rw [emptyCount_append, emptyCount_mk]
          have : emptyCount (applyJoin st cid m) = 0 :=
            (empty_voice_channels_isEmpty_iff _).mp hE
          omega
        · intro _
          simp
      | false =>
        simp only [Bool.false_eq_true, if_false]
        refine ⟨hwf1, le_trans hcount1 hinv, fun _ => ?_⟩
        rw [hst1eq]
        simp
  | leave cid mid nid nm =>
    simp only [VEvent.newId] at hfresh
    have hwf1 : PoolWF cfg (applyLeave st cid mid) :=
      poolWF_applyLeave cfg st cid mid ⟨hnd, hcats⟩
    have hcids1 : cids (applyLeave st cid mid) = cids st := cids_applyLeave st cid mid
    cases hfind : (applyLeave st cid mid).find? (fun c => c.cid = cid) with
    | none =>
      rw [stepEvent_leave_none cfg st cid mid nid nm hfind]
      have hnocid : cid ∉ cids st := by
        intro hmem
        obtain ⟨c, hc, hcc⟩ := exists_channel_of_mem_cids (hcids1 ▸ hmem)
        have := List.find?_eq_none.mp hfind c hc
        simp [hcc] at this
      rw [applyLeave_eq_self st cid mid hnocid]
      exact ⟨⟨hnd, hcats⟩, hinv, fun h => h⟩
    | some ch =>
      rw [stepEvent_leave_some cfg st cid mid nid nm ch hfind]
      have hch1 : ch ∈ applyLeave st cid mid := List.mem_of_find?_eq_some hfind
      have hchcid : ch.cid = cid := by simpa using List.find?_some hfind
      have hcidmem : cid ∈ cids st := by
        have hmemc : ch.cid ∈ cids (applyLeave st cid mid) := mem_cids hch1
        rw [hchcid, hcids1] at hmemc
        exact hmemc
      obtain ⟨c₀, hc₀, hc₀cid⟩ := exists_channel_of_mem_cids hcidmem
      obtain ⟨l₁, l₂, hsplit, h₁, h₂⟩ := exists_split_of_mem_nodup hc₀ hnd
      rw [hc₀cid] at h₁ h₂
      have hst1eq : applyLeave st cid mid =
          l₁ ++ { c₀ with members := c₀.members.filter (fun m => m.mid ≠ mid) } :: l₂ := by
        rw [hsplit]
        exact applyLeave_split l₁ l₂ c₀ cid mid hc₀cid h₁ h₂
      have hcheq : ch = { c₀ with members := c₀.members.filter (fun m => m.mid ≠ mid) } := by
        refine eq_mid_of_mem_cid l₁ l₂ _ ch cid h₁ h₂ ?_ hchcid
        rw [← hst1eq]
        exact hch1
      have hcountbase : emptyCount l₁ + emptyCount l₂ ≤ emptyCount st := by
        rw [hsplit, emptyCount_split]
        split <;> omega
      have hchcat : ch.catId = cfg.managed_category_id := hwf1.2 ch hch1
      cases hemp : is_channel_empty cfg ch with
      | false =>
        rw [handleChannelLeave_skip_nonempty cfg _ ch nid nm hemp]
        have hchmem : ch.members.isEmpty = false :=
          members_not_isEmpty_of_not_empty cfg ch hemp
        have hcount1 : emptyCount (applyLeave st cid mid) ≤ emptyCount st := by
          rw [hst1eq]
          conv_rhs => rw [hsplit]
          refine emptyCount_le_of_not_empty_mid l₁ l₂ c₀ _ ?_
          rw [← hcheq]
          exact hchmem
        refine ⟨hwf1, le_trans hcount1 hinv, fun _ => ?_⟩
        rw [hst1eq]
        simp
      | true =>
        rw [handleChannelLeave_active cfg _ ch nid nm hchcat hemp]
        have hfilter : (applyLeave st cid mid).filter (fun c => c.cid ≠ ch.cid) =
            l₁ ++ l₂ := by
          rw [hst1eq, hchcid]
          refine filter_ne_split l₁ l₂ _ cid ?_ h₁ h₂
          exact hc₀cid
        have hndrest : (cids (l₁ ++ l₂)).Nodup := by
          apply nodup_cids_remove_mid l₁ l₂ c₀
          rw [← hsplit]
          exact hnd
        have hcatrest : ∀ c ∈ l₁ ++ l₂, c.catId = cfg.managed_category_id := by
          intro c hc
          refine hcats c ?_
          rw [hsplit]
          rcases List.mem_append.mp hc with hc | hc
          · exact List.mem_append.mpr (Or.inl hc)
          · exact List.mem_append.mpr (Or.inr (List.mem_cons_of_mem c₀ hc))
        have hfreshrest : nid ∉ cids (l₁ ++ l₂) := by
          intro hmem
          apply hfresh
          show nid ∈ cids st
          rw [hsplit, cids_append]
          rw [cids_append] at hmem
          rcases List.mem_append.mp hmem with h | h
          · exact List.mem_append.mpr (Or.inl h)
          · refine List.mem_append.mpr (Or.inr ?_)
            simp only [cids, List.map_cons]
            exact List.mem_cons_of_mem _ h
        rw [hfilter]
        cases hE : (empty_voice_channels (l₁ ++ l₂)).isEmpty with
        | true =>
          rw [if_pos rfl]
          refine ⟨⟨?_, ?_⟩, ?_, ?_⟩
          · exact nodup_cids_append_mk _ nid nm _ hndrest hfreshrest
          · intro c hc
            rcases List.mem_append.mp hc with hc | hc
            · exact hcatrest c hc
            · simp only [List.mem_singleton] at hc
              rw [hc]
              rfl
          · rw [emptyCount_append, emptyCount_mk]
            have : emptyCount (l₁ ++ l₂) = 0 :=
              (empty_voice_channels_isEmpty_iff _).mp hE
            omega
          · intro _
            simp
        | false =>
          simp only [Bool.false_eq_true, if_false]
          refine ⟨⟨hndrest, hcatrest⟩, ?_, fun _ => ?_⟩
          · rw [emptyCount_append]
            omega
          · intro hcon
            rw [hcon] at hE
            simp [empty_voice_channels] at hE

lemma cid_not_mem_filter (l : List VChannel) (cid : Nat) :
    cid ∉ cids (l.filter (fun c => c.cid ≠ cid)) := by
  intro h
  obtain ⟨c, hc, hcc⟩ := exists_channel_of_mem_cids h
  have := (List.mem_filter.mp hc).2
  simp [hcc] at this

lemma handle_leave_ops_active (cfg : VoiceChannelManagerConfig)
    (st : List VChannel) (ch : VChannel) (nid : Nat) (nm : String)
    (hcat : ch.catId = cfg.managed_category_id)
    (hemp : is_channel_empty cfg ch = true) :
    handle_channel_leave_ops cfg st ch nid nm =
      if (empty_voice_channels (st.filter (fun c => c.cid ≠ ch.cid))).isEmpty then
        (st.filter (fun c => c.cid ≠ ch.cid) ++
          [mkVoiceChannel nid nm cfg.managed_category_id], 1)
      else (st.filter (fun c => c.cid ≠ ch.cid), 0) := by
  simp [handle_channel_leave_ops, hcat, hemp]

lemma leaveTask_creates (cfg : VoiceChannelManagerConfig) (ch : VChannel)
    (nid : Nat) (nm : String) (st : List VChannel) (k : Nat)
    (hcat : ch.catId = cfg.managed_category_id)
    (hemp : is_channel_empty cfg ch = true)
    (hE : (empty_voice_channels (st.filter (fun c => c.cid ≠ ch.cid))).isEmpty = true) :
    leaveTask cfg ch nid nm (st, k) =
      (st.filter (fun c => c.cid ≠ ch.cid) ++
        [mkVoiceChannel nid nm cfg.managed_category_id], k + 1) := by
  simp only [leaveTask, handle_leave_ops_active cfg st ch nid nm hcat hemp, hE,
    if_pos]

lemma leaveTask_no_create (cfg : VoiceChannelManagerConfig) (ch : VChannel)
    (nid : Nat) (nm : String) (st : List VChannel) (k : Nat)
    (hcat : ch.catId = cfg.managed_category_id)
    (hemp : is_channel_empty cfg ch = true)
    (hE : (empty_voice_channels (st.filter (fun c => c.cid ≠ ch.cid))).isEmpty = false) :
    leaveTask cfg ch nid nm (st, k) = (st.filter (fun c => c.cid ≠ ch.cid), k) := by
  simp only [leaveTask, handle_leave_ops_active cfg st ch nid nm hcat hemp, hE]
  simp

/-- Both serializations of two leave tasks for the same vacated channel
create exactly one channel when no other empty channel exists. -/
lemma leaveTask_pair (cfg : VoiceChannelManagerConfig) (ch : VChannel)
    (nidA nidB : Nat) (nmA nmB : String) (st0 : List VChannel)
    (hm : ch.members = []) (hcat : ch.catId = cfg.managed_category_id)
    (hoth : ∀ c ∈ st0, c.cid ≠ ch.cid → c.members ≠ [])
    (hfA : nidA ≠ ch.cid) :
    leaveTask cfg ch nidB nmB (leaveTask cfg ch nidA nmA (st0, 0)) =
      (st0.filter (fun c => c.cid ≠ ch.cid) ++
        [mkVoiceChannel nidA nmA cfg.managed_category_id], 1) := by
  have hemp : is_channel_empty cfg ch = true :=
    is_channel_empty_of_members_isEmpty cfg ch (by rw [hm]; rfl)
  have hE1 : (empty_voice_channels
      (st0.filter (fun c => c.cid ≠ ch.cid))).isEmpty = true := by
    rw [List.isEmpty_iff]
    rw [empty_voice_channels, List.filter_eq_nil_iff]
    intro c hc
    obtain ⟨hc0, hne⟩ := List.mem_filter.mp hc
    have := hoth c hc0 (by simpa using hne)
    simp [List.isEmpty_iff, this]
  rw [leaveTask_creates cfg ch nidA nmA st0 0 hcat hemp hE1]
  have hfilter2 : (st0.filter (fun c => c.cid ≠ ch.cid) ++
      [mkVoiceChannel nidA nmA cfg.managed_category_id]).filter
        (fun c => c.cid ≠ ch.cid) =
      st0.filter (fun c => c.cid ≠ ch.cid) ++
        [mkVoiceChannel nidA nmA cfg.managed_category_id] := by
    refine List.filter_eq_self.mpr ?_
    intro c hc
    rcases List.mem_append.mp hc with hc | hc
    · exact (List.mem_filter.mp hc).2
    · simp only [List.mem_singleton] at hc
      rw [hc]
      simpa [mkVoiceChannel] using hfA
  have hE2 : (empty_voice_channels
      ((st0.filter (fun c => c.cid ≠ ch.cid) ++
        [mkVoiceChannel nidA nmA cfg.managed_category_id]).filter
          (fun c => c.cid ≠ ch.cid))).isEmpty = false := by
    rw [hfilter2]
    simp [empty_voice_channels, List.filter_append, mkVoiceChannel]
  rw [leaveTask_no_create cfg ch nidB nmB _ 1 hcat hemp hE2, hfilter2]

/-- Claim C1 (amended): for any sequence of join/leave events on the
managed category starting from a well-formed state with at most one
empty channel, where "empty" is the notion the handlers and the sweep
actually use — an empty raw member list, bots included
(`empty_voice_channels`) — after the reactive handlers complete with
all remote operations succeeding, the category again contains at most
one empty channel, and contains at least one channel if it contained
any before.  (With the spec's counted, bot-excluding emptiness the
claim fails; see the counterexample.) -/
theorem pool_invariant_maintained (cfg : VoiceChannelManagerConfig)
    (st : List VChannel) (evs : List VEvent) (hwf : PoolWF cfg st)
    (hfresh : FreshEvents cfg st evs = true) (hinv : emptyCount st ≤ 1) :
    emptyCount (runEvents cfg st evs) ≤ 1 ∧
      (st ≠ [] → runEvents cfg st evs ≠ []) := by
  induction evs generalizing st with
  | nil => exact ⟨hinv, fun h => h⟩
  | cons ev evs ih =>
    simp only [FreshEvents, Bool.and_eq_true] at hfresh
    obtain ⟨hf1, hf2⟩ := hfresh
    have hnotmem : ev.newId ∉ cids st := by
      intro hmem
      have htrue : (cids st).any (fun k => k == ev.newId) = true :=
        List.any_eq_true.mpr ⟨ev.newId, hmem, by simp⟩
      rw [htrue] at hf1
      simp at hf1
    obtain ⟨hwf', hinv', hne'⟩ := stepEvent_preserves cfg st ev hwf hnotmem hinv
    obtain ⟨ha, hb⟩ := ih (stepEvent cfg st ev) hwf' hf2 hinv'
    exact ⟨ha, fun hst => hb (hne' hst)⟩

/-- Witness for C1's amended theorem: a leave that empties the sole
channel followed by a join, on a concrete category. -/
theorem pool_invariant_maintained_witness :
    emptyCount (runEvents ⟨7, false, .firstAvailable, false, "X", []⟩
        [⟨1, "A", 7, [⟨10, false⟩], 0⟩]
        [VEvent.leave 1 10 2 "B", VEvent.join 2 ⟨11, false⟩ 3 "C"]) ≤ 1 ∧
      runEvents ⟨7, false, .firstAvailable, false, "X", []⟩
        [⟨1, "A", 7, [⟨10, false⟩], 0⟩]
        [VEvent.leave 1 10 2 "B", VEvent.join 2 ⟨11, false⟩ 3 "C"] ≠ [] := by
  have h := pool_invariant_maintained ⟨7, false, .firstAvailable, false, "X", []⟩
    [⟨1, "A", 7, [⟨10, false⟩], 0⟩]
    [VEvent.leave 1 10 2 "B", VEvent.join 2 ⟨11, false⟩ 3 "C"]
    ⟨by decide, by decide⟩ (by decide) (by decide)
  exact ⟨h.1, h.2 (by decide)⟩

/-- Counterexample to claim C1 as stated with the spec's occupancy
predicate (counted members, bots excluded when `ignore_bots` is true):
starting from a category with exactly one counted-empty channel (a
channel holding only a bot), a join event on the occupied channel makes
the join handler create a fresh channel — `empty_voice_channels`
ignores `ignore_bots` and sees no empty channel — leaving TWO
counted-empty channels. -/
theorem pool_invariant_counterexample :
    (countedEmptyChannels ⟨7, true, .firstAvailable, false, "X", []⟩
        [⟨1, "A", 7, [⟨100, true⟩], 0⟩, ⟨2, "B", 7, [⟨200, false⟩], 0⟩]).length = 1 ∧
      (countedEmptyChannels ⟨7, true, .firstAvailable, false, "X", []⟩
        (stepEvent ⟨7, true, .firstAvailable, false, "X", []⟩
          [⟨1, "A", 7, [⟨100, true⟩], 0⟩, ⟨2, "B", 7, [⟨200, false⟩], 0⟩]
          (.join 2 ⟨300, false⟩ 3 "C"))).length = 2 := by
  decide

/-- Claim C2 (amended): the leave handlers delete the vacated empty
channel UNCONDITIONALLY — also when it is the sole empty channel of the
category.  In the service/handler revision, `_handle_channel_leave`
issues the delete under the lock with no other-empty-channel test, and
afterwards creates a fresh channel if no empty channel remains; in the
cog revision, `Listeners.handle_channel_leave` guards the delete by
`any(empty_channels)`, but that enumeration includes the vacated
channel itself, so the guard always passes and the channel is always
deleted. -/
theorem leave_always_deletes (cfg : VoiceChannelManagerConfig)
    (st : List VChannel) (cid mid nid : Nat) (nm : String) (ch : VChannel)
    (cfg2 : CogConfig) (st2 : List VChannel) (ch2 : VChannel)
    (hfind : (applyLeave st cid mid).find? (fun c => c.cid = cid) = some ch)
    (hcat : ch.catId = cfg.managed_category_id)
    (hemp : is_channel_empty cfg ch = true)
    (hnid : nid ≠ cid)
    (h2mem : ch2 ∈ st2) (h2emp : ch2.members.isEmpty = true)
    (h2cat : ch2.catId = cfg2.managed_category_id) :
    cid ∉ cids (stepEvent cfg st (.leave cid mid nid nm)) ∧
      cog_handle_channel_leave cfg2 st2 ch2 =
        st2.filter (fun c => c.cid ≠ ch2.cid) := by
  constructor
  · have hchcid : ch.cid = cid := by simpa using List.find?_some hfind
    rw [stepEvent_leave_some cfg st cid mid nid nm ch hfind,
      handleChannelLeave_active cfg _ ch nid nm hcat hemp, hchcid]
    intro hmem
    rcases hsplit : (empty_voice_channels
        ((applyLeave st cid mid).filter (fun c => c.cid ≠ cid))).isEmpty with _ | _
    · rw [hsplit] at hmem
      simp only [Bool.false_eq_true, if_false] at hmem
      exact cid_not_mem_filter _ cid hmem
    · rw [hsplit, if_pos rfl] at hmem
      rw [cids_append] at hmem
      rcases List.mem_append.mp hmem with h | h
      · exact cid_not_mem_filter _ cid h
      · simp [cids, mkVoiceChannel] at h
        exact hnid h.symm
  · have hany : (empty_voice_channels st2).isEmpty = false := by
      have : ch2 ∈ empty_voice_channels st2 :=
        List.mem_filter.mpr ⟨h2mem, h2emp⟩
      cases hcase : (empty_voice_channels st2).isEmpty with
      | false => rfl
      | true =>
        rw [List.isEmpty_iff] at hcase
        rw [hcase] at this
        cases this
    simp [cog_handle_channel_leave, h2emp, h2cat, hany]

/-- Witness for C2's amended theorem: a two-channel category in each
revision; the vacated empty channel (id 5) disappears. -/
theorem leave_always_deletes_witness :
    5 ∉ cids (stepEvent ⟨7, false, .firstAvailable, false, "X", []⟩
        [⟨5, "General", 7, [⟨10, false⟩], 0⟩] (.leave 5 10 9 "Extra")) ∧
      cog_handle_channel_leave ⟨7, .firstAvailable, false, "X", []⟩
          [⟨5, "G", 7, [], 0⟩, ⟨6, "H", 7, [⟨1, false⟩], 0⟩] ⟨5, "G", 7, [], 0⟩ =
        ([⟨5, "G", 7, [], 0⟩, ⟨6, "H", 7, [⟨1, false⟩], 0⟩] :
            List VChannel).filter (fun c => c.cid ≠ (⟨5, "G", 7, [], 0⟩ : VChannel).cid) :=
  leave_always_deletes ⟨7, false, .firstAvailable, false, "X", []⟩
    [⟨5, "General", 7, [⟨10, false⟩], 0⟩] 5 10 9 "Extra" ⟨5, "General", 7, [], 0⟩
    ⟨7, .firstAvailable, false, "X", []⟩
    [⟨5, "G", 7, [], 0⟩, ⟨6, "H", 7, [⟨1, false⟩], 0⟩] ⟨5, "G", 7, [], 0⟩
    (by decide) (by decide) (by decide) (by decide) (by decide) (by decide)
    (by decide)

/-- Counterexample to claim C2 as stated: channel 5 is the sole channel
of the category; its only member leaves, making it the sole empty
channel.  The claim says the handler must not delete it; the handler in
fact deletes it (and creates a replacement with a fresh id), so no
channel with id 5 survives. -/
theorem leave_deletes_sole_empty_counterexample :
    (empty_voice_channels (applyLeave
        [⟨5, "General", 7, [⟨10, false⟩], 0⟩] 5 10)).map VChannel.cid = [5] ∧
      stepEvent ⟨7, false, .firstAvailable, false, "X", []⟩
          [⟨5, "General", 7, [⟨10, false⟩], 0⟩] (.leave 5 10 9 "Extra") =
        [⟨9, "Extra", 7, [], 0⟩] := by
  decide

/-- Claim C3: two concurrent leave handlers for the same vacated
channel, in a category where each alone would observe zero empty
channels after its delete, create exactly one channel under every
schedule of the lock-interleaving semantics that runs both to
completion — the serialization lock admits only the two sequential
orders, and the second handler sees the first one's fresh channel. -/
theorem no_double_create (cfg : VoiceChannelManagerConfig)
    (st0 : List VChannel) (ch : VChannel) (nid1 nid2 : Nat) (nm1 nm2 : String)
    (sched : List Bool) (hch : ch ∈ st0) (hm : ch.members = [])
    (hcat : ch.catId = cfg.managed_category_id)
    (hoth : ∀ c ∈ st0, c.cid ≠ ch.cid → c.members ≠ [])
    (hf1 : nid1 ∉ cids st0) (hf2 : nid2 ∉ cids st0)
    (h1 : (lockRun (leaveTask cfg ch nid1 nm1) (leaveTask cfg ch nid2 nm2)
        (lockInit (st0, 0)) sched).pc1 = 3)
    (h2 : (lockRun (leaveTask cfg ch nid1 nm1) (leaveTask cfg ch nid2 nm2)
        (lockInit (st0, 0)) sched).pc2 = 3) :
    (lockRun (leaveTask cfg ch nid1 nm1) (leaveTask cfg ch nid2 nm2)
        (lockInit (st0, 0)) sched).shared.2 = 1 := by
  have hne1 : nid1 ≠ ch.cid := fun h => hf1 (h ▸ mem_cids hch)
  have hne2 : nid2 ≠ ch.cid := fun h => hf2 (h ▸ mem_cids hch)
  rcases lock_serializes (leaveTask cfg ch nid1 nm1) (leaveTask cfg ch nid2 nm2)
      (st0, 0) sched h1 h2 with h | h <;> rw [h]
  · rw [leaveTask_pair cfg ch nid1 nid2 nm1 nm2 st0 hm hcat hoth hne1]
  · rw [leaveTask_pair cfg ch nid2 nid1 nm2 nm1 st0 hm hcat hoth hne2]

/-- Witness for C3: a concrete two-channel category, two leave tasks
for the vacated channel 5, and a schedule running task one fully and
then task two. -/
theorem no_double_create_witness :
    (lockRun (leaveTask ⟨7, false, .firstAvailable, false, "X", []⟩
          ⟨5, "G", 7, [], 0⟩ 8 "N1")
        (leaveTask ⟨7, false, .firstAvailable, false, "X", []⟩
          ⟨5, "G", 7, [], 0⟩ 9 "N2")
        (lockInit ([⟨5, "G", 7, [], 0⟩, ⟨6, "H", 7, [⟨1, false⟩], 0⟩], 0))
        [true, true, true, false, false, false]).shared.2 = 1 :=
  no_double_create ⟨7, false, .firstAvailable, false, "X", []⟩
    [⟨5, "G", 7, [], 0⟩, ⟨6, "H", 7, [⟨1, false⟩], 0⟩] ⟨5, "G", 7, [], 0⟩
    8 9 "N1" "N2" [true, true, true, false, false, false]
    (by decide) (by decide) (by decide) (by decide) (by decide) (by decide)
    (by decide) (by decide)

/-- Claim C4 (amended): with `ignore_bots` true, only `is_channel_empty`
— the predicate the leave handler applies to the vacated channel —
counts a channel as empty iff it has no non-bot members (all members
are bots); the enumeration `empty_voice_channels`, which the
reconciliation sweep and the handlers' zero-empty-channel observations
use, counts a channel as empty iff its raw member list is empty, bots
included. -/
theorem occupancy_predicate_split (cfg : VoiceChannelManagerConfig)
    (ch : VChannel) (st : List VChannel) (hib : cfg.ignore_bots = true) :
    (is_channel_empty cfg ch = true ↔ ch.members.all VMember.bot = true) ∧
      (ch ∈ empty_voice_channels st ↔ ch ∈ st ∧ ch.members = []) := by
  constructor
  · simp [is_channel_empty, hib, List.all_eq_true, List.any_eq_true]
  · simp [empty_voice_channels, List.mem_filter, List.isEmpty_iff]

/-- Witness for C4's amended theorem at a bot-occupied channel. -/
theorem occupancy_predicate_split_witness :
    (is_channel_empty ⟨7, true, .firstAvailable, false, "X", []⟩
        ⟨1, "A", 7, [⟨100, true⟩], 0⟩ = true ↔
      ([⟨100, true⟩] : List VMember).all VMember.bot = true) ∧
      ((⟨1, "A", 7, [⟨100, true⟩], 0⟩ : VChannel) ∈
          empty_voice_channels [⟨1, "A", 7, [⟨100, true⟩], 0⟩] ↔
        (⟨1, "A", 7, [⟨100, true⟩], 0⟩ : VChannel) ∈
            ([⟨1, "A", 7, [⟨100, true⟩], 0⟩] : List VChannel) ∧
          ([⟨100, true⟩] : List VMember) = []) :=
  occupancy_predicate_split ⟨7, true, .firstAvailable, false, "X", []⟩
    ⟨1, "A", 7, [⟨100, true⟩], 0⟩ [⟨1, "A", 7, [⟨100, true⟩], 0⟩] (by decide)

/-- Counterexample to claim C4 as stated: with `ignore_bots` true, a
channel whose sole member is a bot has no non-bot members and
`is_channel_empty` calls it empty, yet the sweep's partition
(`empty_voice_channels`) does not count it as empty — and the sweep
consequently issues a create call. -/
theorem occupancy_counterexample :
    is_channel_empty ⟨7, true, .firstAvailable, false, "X", []⟩
        ⟨1, "A", 7, [⟨100, true⟩], 0⟩ = true ∧
      empty_voice_channels [⟨1, "A", 7, [⟨100, true⟩], 0⟩] = [] ∧
      (check_voice_channels ⟨7, true, .firstAvailable, false, "X", []⟩
        [⟨1, "A", 7, [⟨100, true⟩], 0⟩] 2 "New").created = 1 := by
  decide

/-- Claim C5 (code bug): the service revision's overflow path ignores
`ensure_unique_names` entirely.  With every candidate in use and
`ensure_unique_names = false`, the claim (and the cog revision, and
the config model whose validator ties `{number}` to the flag) say
`next_name()` returns `overflow_channel_name` verbatim; the service's
`_get_overflow_name` instead always substitutes `{number}` starting at
1, returning "Overflow 1" here. -/
theorem overflow_ignores_unique_flag :
    (⟨7, false, .firstAvailable, false, "Overflow {number}", ["A"]⟩ :
        VoiceChannelManagerConfig).ensure_unique_names = false ∧
      (["A"] : List String).all
        (fun n => (get_voice_channel_by_name
          [⟨1, "A", 7, [⟨10, false⟩], 0⟩] n).isSome) = true ∧
      get_next_channel_name
          ⟨7, false, .firstAvailable, false, "Overflow {number}", ["A"]⟩
          [⟨1, "A", 7, [⟨10, false⟩], 0⟩] [] 2 = some "Overflow 1" ∧
      (some "Overflow 1" : Option String) ≠
        some (⟨7, false, .firstAvailable, false, "Overflow {number}", ["A"]⟩ :
          VoiceChannelManagerConfig).overflow_channel_name := by
  decide

/-- Claim C6 (amended): both startup-binding failure kinds surface as
`InvalidConfiguration` at the service constructor; the distinction
exists only one layer down — `set_category` raises `ValueError` for a
non-category id and `validate_category_permissions` raises
`MissingPermissions` — and the constructor's `except (ValueError,
MissingPermissions)` wrapper collapses both. -/
theorem binder_collapses_failures (g : List GuildChannel) (cid : Nat)
    (c : GuildChannel) (g2 : List GuildChannel) (cid2 : Nat)
    (hres : get_channel g cid = some c) (hcat : c.isCategory = true)
    (hperm : c.botCanManage = false) (hnone : get_channel g2 cid2 = none) :
    service_init g cid = .error .invalidConfiguration ∧
      validate_category_permissions c = .error .missingPermissions ∧
      service_init g2 cid2 = .error .invalidConfiguration := by
  refine ⟨?_, ?_, ?_⟩
  · simp [service_init, set_category, hres, hcat, validate_category_permissions,
      hperm]
  · simp [validate_category_permissions, hperm]
  · simp [service_init, set_category, hnone]

/-- Witness for C6's amended theorem: a guild whose channel 7 is a
category without manage permission, and a guild with no channel 3. -/
theorem binder_collapses_failures_witness :
    service_init [⟨7, true, false⟩] 7 = .error .invalidConfiguration ∧
      validate_category_permissions ⟨7, true, false⟩ =
        .error .missingPermissions ∧
      service_init [] 3 = .error .invalidConfiguration :=
  binder_collapses_failures [⟨7, true, false⟩] 7 ⟨7, true, false⟩ [] 3
    (by decide) (by decide) (by decide) (by decide)

/-- Counterexample to claim C6 as stated: the permission failure does
NOT fail with `MissingPermissions` at the service constructor — it is
wrapped into `InvalidConfiguration`, so the two failure kinds are not
distinguished at that interface. -/
theorem binder_counterexample :
    service_init [⟨7, true, false⟩] 7 = .error .invalidConfiguration ∧
      service_init [⟨7, true, false⟩] 7 ≠ .error .missingPermissions := by
  refine ⟨rfl, ?_⟩
  intro h
  rw [show service_init [⟨7, true, false⟩] 7 = .error .invalidConfiguration
    from rfl] at h
  injection h with h2
  exact PyError.noConfusion h2

lemma runDeletes_eq_filter (cfg : VoiceChannelManagerConfig)
    (chs : List VChannel) :
    ∀ st, (∀ ch ∈ chs, ch.catId = cfg.managed_category_id) →
      runDeletes cfg st chs =
        st.filter (fun c => ! chs.any (fun e => e.cid = c.cid)) := by
  induction chs with
  | nil =>
    intro st _
    simp [runDeletes]
  | cons ch chs ih =>
    intro st hcat
    have hdel : delete_channel cfg st ch =
        .ok (st.filter (fun c => c.cid ≠ ch.cid)) := by
      simp [delete_channel, hcat ch (List.mem_cons_self ch chs)]
    have hstep : runDeletes cfg st (ch :: chs) =
        runDeletes cfg (st.filter (fun c => c.cid ≠ ch.cid)) chs := by
      simp [runDeletes, hdel]
    rw [hstep, ih _ (fun e he => hcat e (List.mem_cons_of_mem _ he))]
    rw [List.filter_filter]
    refine List.filter_congr ?_
    intro c _
    rw [List.any_cons]
    by_cases h1 : ch.cid = c.cid
    · simp [h1]
    · have h2 : ¬ c.cid = ch.cid := fun h => h1 h.symm
      simp [h1, h2]

lemma empty_voice_channels_filter (st : List VChannel) (q : VChannel → Bool) :
    empty_voice_channels (st.filter q) = (empty_voice_channels st).filter q := by
  rw [empty_voice_channels, empty_voice_channels, List.filter_filter,
    List.filter_filter]
  exact List.filter_congr fun c _ => Bool.and_comm _ _

lemma nodup_cids_empty_voice_channels (st : List VChannel)
    (hnd : (cids st).Nodup) : (cids (empty_voice_channels st)).Nodup :=
  List.Nodup.sublist ((List.filter_sublist st).map VChannel.cid) hnd

/-- After one sweep with all operations succeeding, exactly one channel
of the category is empty. -/
lemma sweep_one_empty (cfg : VoiceChannelManagerConfig) (st : List VChannel)
    (nid : Nat) (nm : String) (hnd : (cids st).Nodup)
    (hcat : ∀ c ∈ st, c.catId = cfg.managed_category_id) :
    emptyCount (check_voice_channels cfg st nid nm).state = 1 := by
  rcases hecs : empty_voice_channels st with _ | ⟨e0, rest⟩
  · have hlen : ¬ (empty_voice_channels st).length > 1 := by simp [hecs]
    have hie : (empty_voice_channels st).isEmpty = true := by simp [hecs]
    simp only [check_voice_channels, hlen, if_false, hie, if_pos]
    rw [emptyCount_append, emptyCount_mk]
    have : emptyCount st = 0 := by simp [emptyCount, hecs]
    omega
  · rcases rest with _ | ⟨e1, rest⟩
    · have hlen : ¬ (empty_voice_channels st).length > 1 := by simp [hecs]
      have hie : (empty_voice_channels st).isEmpty = false := by simp [hecs]
      simp only [check_voice_channels, hlen, if_false, hie, Bool.false_eq_true]
      simp [emptyCount, hecs]
    · have hlen : (empty_voice_channels st).length > 1 := by simp [hecs]
      have hie : (empty_voice_channels st).isEmpty = false := by simp [hecs]
      have hdrop : (empty_voice_channels st).drop 1 = e1 :: rest := by
        simp [hecs]
      have hcatd : ∀ ch ∈ e1 :: rest, ch.catId = cfg.managed_category_id := by
        intro ch hch
        refine hcat ch ?_
        have : ch ∈ empty_voice_channels st := by
          rw [hecs]
          exact List.mem_cons_of_mem e0 hch
        exact (List.mem_filter.mp this).1
      have hrun : runDeletes cfg st (e1 :: rest) =
          st.filter (fun c => ! (e1 :: rest).any (fun e => e.cid = c.cid)) :=
        runDeletes_eq_filter cfg (e1 :: rest) st hcatd
      simp only [check_voice_channels, hlen, if_pos, hdrop, hie,
        Bool.false_eq_true, if_false, hrun]
      rw [emptyCount, empty_voice_channels_filter, hecs]
      have hndecs : (cids (e0 :: e1 :: rest)).Nodup := by
        rw [← hecs]
        exact nodup_cids_empty_voice_channels st hnd
      have he0 : (! (e1 :: rest).any (fun e => e.cid = e0.cid)) = true := by
        have h0 : e0.cid ∉ cids (e1 :: rest) := by
          have h := hndecs
          simp only [cids, List.map_cons] at h ⊢
          exact (List.nodup_cons.mp h).1
        cases hany : (e1 :: rest).any (fun e => e.cid = e0.cid) with
        | false => rfl
        | true =>
          obtain ⟨e, he, hee⟩ := List.any_eq_true.mp hany
          exfalso
          apply h0
          have : e.cid = e0.cid := by simpa using hee
          exact this ▸ mem_cids he
      have hrest : ∀ e ∈ e1 :: rest,
          (! (e1 :: rest).any (fun x => x.cid = e.cid)) = false := by
        intro e he
        have : (e1 :: rest).any (fun x => x.cid = e.cid) = true :=
          List.any_eq_true.mpr ⟨e, he, by simp⟩
        simp [this]
      rw [List.filter_cons, he0, if_pos rfl]
      have : (e1 :: rest).filter
          (fun c => ! (e1 :: rest).any (fun e => e.cid = c.cid)) = [] := by
        refine List.filter_eq_nil_iff.mpr ?_
        intro e he
        rw [hrest e he]
        simp
      rw [this]
      rfl

/-- A sweep on a state with exactly one empty channel issues no
operations and leaves the state unchanged. -/
lemma check_noop (cfg : VoiceChannelManagerConfig) (st : List VChannel)
    (nid : Nat) (nm : String) (h : emptyCount st = 1) :
    check_voice_channels cfg st nid nm = ⟨st, 0, 0⟩ := by
  have hlen : ¬ (empty_voice_channels st).length > 1 := by
    rw [emptyCount] at h
    omega
  have hie : (empty_voice_channels st).isEmpty = false := by
    rw [emptyCount] at h
    cases hcase : (empty_voice_channels st).isEmpty with
    | false => rfl
    | true =>
      rw [List.isEmpty_iff] at hcase
      rw [hcase] at h
      simp at h
  simp [check_voice_channels, hlen, hie]

/-- Claim C7: the reconciliation sweep is idempotent — after one
`check_voice_channels` run with all operations succeeding, an
immediate second run issues no delete and no create calls and leaves
the category unchanged. -/
theorem reconcile_sweep_idempotent (cfg : VoiceChannelManagerConfig)
    (st : List VChannel) (nid nm nid2 nm2) (hnd : (cids st).Nodup)
    (hcat : ∀ c ∈ st, c.catId = cfg.managed_category_id) :
    (check_voice_channels cfg (check_voice_channels cfg st nid nm).state
        nid2 nm2).deleted = 0 ∧
      (check_voice_channels cfg (check_voice_channels cfg st nid nm).state
        nid2 nm2).created = 0 ∧
      (check_voice_channels cfg (check_voice_channels cfg st nid nm).state
        nid2 nm2).state = (check_voice_channels cfg st nid nm).state := by
  rw [check_noop cfg _ nid2 nm2 (sweep_one_empty cfg st nid nm hnd hcat)]
  exact ⟨rfl, rfl, rfl⟩

/-- Witness for C7 on a category with three empty channels and one
occupied channel. -/
theorem reconcile_sweep_idempotent_witness :
    (check_voice_channels ⟨7, false, .firstAvailable, false, "X", []⟩
        (check_voice_channels ⟨7, false, .firstAvailable, false, "X", []⟩
          [⟨1, "A", 7, [⟨10, false⟩], 0⟩, ⟨2, "B", 7, [], 0⟩,
            ⟨3, "C", 7, [], 0⟩, ⟨4, "D", 7, [], 0⟩] 9 "New").state
        10 "New2").deleted = 0 ∧
      (check_voice_channels ⟨7, false, .firstAvailable, false, "X", []⟩
        (check_voice_channels ⟨7, false, .firstAvailable, false, "X", []⟩
          [⟨1, "A", 7, [⟨10, false⟩], 0⟩, ⟨2, "B", 7, [], 0⟩,
            ⟨3, "C", 7, [], 0⟩, ⟨4, "D", 7, [], 0⟩] 9 "New").state
        10 "New2").created = 0 ∧
      (check_voice_channels ⟨7, false, .firstAvailable, false, "X", []⟩
        (check_voice_channels ⟨7, false, .firstAvailable, false, "X", []⟩
          [⟨1, "A", 7, [⟨10, false⟩], 0⟩, ⟨2, "B", 7, [], 0⟩,
            ⟨3, "C", 7, [], 0⟩, ⟨4, "D", 7, [], 0⟩] 9 "New").state
        10 "New2").state =
      (check_voice_channels ⟨7, false, .firstAvailable, false, "X", []⟩
          [⟨1, "A", 7, [⟨10, false⟩], 0⟩, ⟨2, "B", 7, [], 0⟩,
            ⟨3, "C", 7, [], 0⟩, ⟨4, "D", 7, [], 0⟩] 9 "New").state :=
  reconcile_sweep_idempotent ⟨7, false, .firstAvailable, false, "X", []⟩
    [⟨1, "A", 7, [⟨10, false⟩], 0⟩, ⟨2, "B", 7, [], 0⟩, ⟨3, "C", 7, [], 0⟩,
      ⟨4, "D", 7, [], 0⟩] 9 "New" 10 "New2" (by decide) (by decide)

/-- Claim C8: under the FIRST_AVAILABLE strategy, `next_name()` returns
the first candidate in the configured order of
`available_channel_names` that is not the name of any channel in the
managed category: the returned name splits the candidate list so that
every earlier candidate is in use and the returned one is not. -/
theorem first_available_returns_first_free (cfg : VoiceChannelManagerConfig)
    (st : List VChannel) (sampled : List String) (fuel : Nat)
    (hstrat : cfg.channel_order_strategy = .firstAvailable)
    (hfree : ∃ n ∈ cfg.available_channel_names,
      get_voice_channel_by_name st n = none) :
    ∃ n l₁ l₂, get_next_channel_name cfg st sampled fuel = some n ∧
      cfg.available_channel_names = l₁ ++ n :: l₂ ∧
      get_voice_channel_by_name st n = none ∧
      ∀ nm ∈ l₁, (get_voice_channel_by_name st nm).isSome = true := by
  obtain ⟨n0, hn0mem, hn0free⟩ := hfree
  have hfind : (cfg.available_channel_names.find?
      (fun n => (get_voice_channel_by_name st n).isNone)).isSome = true := by
    cases hcase : cfg.available_channel_names.find?
        (fun n => (get_voice_channel_by_name st n).isNone) with
    | none =>
      exfalso
      have := List.find?_eq_none.mp hcase n0 hn0mem
      simp [hn0free] at this
    | some n => rfl
  obtain ⟨n, hn⟩ := Option.isSome_iff_exists.mp hfind
  obtain ⟨hpn, l₁, l₂, heq, hall⟩ := find?_eq_some_split _ _ n hn
  refine ⟨n, l₁, l₂, ?_, heq, ?_, ?_⟩
  · simp [get_next_channel_name, hstrat, get_first_available_channel_name, hn]
  · simpa [Option.isNone_iff_eq_none] using hpn
  · intro nm hnm
    have := hall nm hnm
    cases hcase : get_voice_channel_by_name st nm with
    | none => rw [hcase] at this; simp at this
    | some c => rfl

/-- Witness for C8: the spec's example — candidates A, B, C with A and
C in use and B free — yields B. -/
theorem first_available_returns_first_free_witness :
    (∃ n l₁ l₂, get_next_channel_name
        ⟨7, false, .firstAvailable, false, "X", ["A", "B", "C"]⟩
        [⟨1, "A", 7, [⟨10, false⟩], 0⟩, ⟨3, "C", 7, [], 0⟩] [] 0 = some n ∧
      (["A", "B", "C"] : List String) = l₁ ++ n :: l₂ ∧
      get_voice_channel_by_name
        [⟨1, "A", 7, [⟨10, false⟩], 0⟩, ⟨3, "C", 7, [], 0⟩] n = none ∧
      ∀ nm ∈ l₁, (get_voice_channel_by_name
        [⟨1, "A", 7, [⟨10, false⟩], 0⟩, ⟨3, "C", 7, [], 0⟩] nm).isSome = true) ∧
      get_next_channel_name
        ⟨7, false, .firstAvailable, false, "X", ["A", "B", "C"]⟩
        [⟨1, "A", 7, [⟨10, false⟩], 0⟩, ⟨3, "C", 7, [], 0⟩] [] 0 = some "B" :=
  ⟨first_available_returns_first_free
      ⟨7, false, .firstAvailable, false, "X", ["A", "B", "C"]⟩
      [⟨1, "A", 7, [⟨10, false⟩], 0⟩, ⟨3, "C", 7, [], 0⟩] [] 0 rfl
      (by decide), by decide⟩

lemma cog_next_snd (cfg : CogConfig) (st : List VChannel)
    (shuffled : List String) (randStart fuel : Nat) :
    (cog_get_next_voice_channel_name cfg st shuffled randStart fuel).2 =
      match cfg.channel_order_strategy with
      | .random => { cfg with available_channel_names := shuffled }
      | .firstAvailable => cfg := by
  unfold cog_get_next_voice_channel_name
  cases hs : cfg.channel_order_strategy with
  | random =>
    simp only
    cases hf : shuffled.find? (fun n => (get_voice_channel_by_name st n).isNone) with
    | some n => simp
    | none =>
      cases hu : cfg.ensure_unique_names with
      | false => simp [hu]
      | true =>
        simp only [hu, if_pos]
        cases hsearch : cog_overflow_search st cfg.overflow_channel_name
            fuel randStart with
        | some k => simp
        | none => simp
  | firstAvailable =>
    simp only
    cases hf : cfg.available_channel_names.find?
        (fun n => (get_voice_channel_by_name st n).isNone) with
    | some n => simp
    | none =>
      cases hu : cfg.ensure_unique_names with
      | false => simp [hu]
      | true =>
        simp only [hu, if_pos]
        cases hsearch : cog_overflow_search st cfg.overflow_channel_name
            fuel 1 with
        | some k => simp
        | none => simp

/-- Claim C9 (amended): the service revision's allocator never touches
the config (`random.sample` builds a fresh list, which the embedding
reflects by leaving the config out of the result), and the cog
revision's allocator leaves the config unchanged under FIRST_AVAILABLE;
under RANDOM, however, `random.shuffle(names)` reorders
`available_channel_names` IN PLACE, so after the call the config holds
a permutation of the original list rather than the original order. -/
theorem allocator_preserves_candidates (cfg : CogConfig) (st : List VChannel)
    (shuffled : List String) (randStart fuel : Nat)
    (hperm : shuffled.Perm cfg.available_channel_names) :
    ((cog_get_next_voice_channel_name cfg st shuffled randStart
          fuel).2.available_channel_names).Perm cfg.available_channel_names ∧
      (cfg.channel_order_strategy = .firstAvailable →
        (cog_get_next_voice_channel_name cfg st shuffled randStart fuel).2 =
          cfg) := by
  rw [cog_next_snd]
  cases hs : cfg.channel_order_strategy with
  | random =>
    refine ⟨hperm, ?_⟩
    intro h
    cases h
  | firstAvailable => exact ⟨List.Perm.refl _, fun _ => rfl⟩

/-- Witness for C9's amended theorem under FIRST_AVAILABLE with the
identity permutation. -/
theorem allocator_preserves_candidates_witness :
    ((cog_get_next_voice_channel_name
          ⟨7, .firstAvailable, false, "X", ["A", "B"]⟩ [] ["A", "B"] 1
          1).2.available_channel_names).Perm (["A", "B"] : List String) ∧
      (cog_get_next_voice_channel_name
          ⟨7, .firstAvailable, false, "X", ["A", "B"]⟩ [] ["A", "B"] 1 1).2 =
        ⟨7, .firstAvailable, false, "X", ["A", "B"]⟩ :=
  ⟨(allocator_preserves_candidates ⟨7, .firstAvailable, false, "X", ["A", "B"]⟩
      [] ["A", "B"] 1 1 (List.Perm.refl _)).1,
    (allocator_preserves_candidates ⟨7, .firstAvailable, false, "X", ["A", "B"]⟩
      [] ["A", "B"] 1 1 (List.Perm.refl _)).2 rfl⟩

/-- Counterexample to claim C9 as stated: under the RANDOM strategy a
shuffle outcome that swaps the two candidates is possible, and after
the cog allocator runs, the config's `available_channel_names` is no
longer the original list in the original order. -/
theorem config_mutation_counterexample :
    List.Perm ["B", "A"] (["A", "B"] : List String) ∧
      (cog_get_next_voice_channel_name ⟨7, .random, false, "X", ["A", "B"]⟩
        [] ["B", "A"] 1 1).2.available_channel_names ≠ ["A", "B"] :=
  ⟨List.Perm.swap "A" "B" [], by decide⟩

/-- Claim C10: `set_limit` validates the 0..99 range before the
category check — any out-of-range value yields `ValueError` even on an
unmanaged channel — and whenever the call returns an error of any kind
the channel is unchanged. -/
theorem set_limit_validation_order (cfg : VoiceChannelManagerConfig)
    (ch : VChannel) (value : Int) (editOk : Bool) (e : PyError) :
    (¬ (0 ≤ value ∧ value ≤ 99) →
      (set_limit cfg ch value editOk).1 = .error .valueError) ∧
      ((set_limit cfg ch value editOk).1 = .error e →
        (set_limit cfg ch value editOk).2 = ch) := by
  constructor
  · intro h
    simp [set_limit, h]
  · intro he
    by_cases h1 : ¬ (0 ≤ value ∧ value ≤ 99)
    · simp [set_limit, h1]
    · by_cases h2 : ch.catId ≠ cfg.managed_category_id
      · simp [set_limit, h1, h2]
      · cases hok : editOk with
        | false => simp [set_limit, h1, h2, hok]
        | true =>
          rw [set_limit] at he
          simp only [h1, h2, hok, if_false, if_true] at he
          cases he

/-- Witness for C10: value 150 on a channel outside the managed
category yields `ValueError` (not `UnmanagedCategory`) and the channel
keeps its limit. -/
theorem set_limit_validation_order_witness :
    (set_limit ⟨7, false, .firstAvailable, false, "X", []⟩
        ⟨1, "A", 8, [], 5⟩ 150 true).1 = .error .valueError ∧
      (set_limit ⟨7, false, .firstAvailable, false, "X", []⟩
        ⟨1, "A", 8, [], 5⟩ 150 true).2 = ⟨1, "A", 8, [], 5⟩ :=
  ⟨(set_limit_validation_order ⟨7, false, .firstAvailable, false, "X", []⟩
      ⟨1, "A", 8, [], 5⟩ 150 true .valueError).1 (by decide),
    (set_limit_validation_order ⟨7, false, .firstAvailable, false, "X", []⟩
      ⟨1, "A", 8, [], 5⟩ 150 true .valueError).2
      ((set_limit_validation_order ⟨7, false, .firstAvailable, false, "X", []⟩
        ⟨1, "A", 8, [], 5⟩ 150 true .valueError).1 (by decide))⟩

end UniversityBot
